import Mathlib

/-!
Verification of the whisk-generator batch image-generation engine.

The definitions below are a shallow embedding of the JavaScript source:
the credential pool (`getNextClient`), the prompt ledger
(`loadPrompts`, `removePromptFromFile`), the per-worker generation loop
(`generateImagesWorker`) with its retry loop and consecutive-error
circuit breaker, and the orchestrator's round-robin prompt distribution
(`distributePrompts`).  File I/O is modelled by passing the prompt
file's content explicitly (`Option String`, `none` meaning the file is
unreadable), and the remote endpoint by an oracle assigning an outcome
to every generation call, indexed by a running call counter.
-/

namespace Whisk

/-- One credential: a display name and the secret token string,
mirroring the `{name, token}` objects stored in `config.tokens`. -/
structure Token where
  name : String
  token : String
deriving DecidableEq, Repr

/-- The client rotation state: the ordered client list built by
`initializeClients` plus the shared rotation cursor
`currentTokenIndex`. -/
structure Pool where
  clients : List Token
  currentTokenIndex : Nat
deriving DecidableEq, Repr

/-- Model of `getNextClient` from the source: returns `null` when the client
list is empty, otherwise returns the client at the cursor and advances
the cursor by one modulo the pool size. -/
def getNextClient (p : Pool) : Option Token × Pool :=
  if p.clients.length = 0 then (none, p)
  else
    (p.clients.get? p.currentTokenIndex,
     { p with currentTokenIndex := (p.currentTokenIndex + 1) % p.clients.length })

/-- State after `k` successive `getNextClient` calls. -/
def poolAfter (p : Pool) : Nat → Pool
  | 0 => p
  | k + 1 => (getNextClient (poolAfter p k)).2

/-- The token returned by the `(k+1)`-th `getNextClient` call (0-indexed). -/
def poolOut (p : Pool) (k : Nat) : Option Token :=
  (getNextClient (poolAfter p k)).1

/-- Whitespace characters stripped by the JavaScript `trim()` built-in,
restricted to the ASCII whitespace relevant for prompt files. -/
def isJsWhitespace (c : Char) : Bool :=
  c == ' ' || c == '\t' || c == '\n' || c == '\r'

/-- The JavaScript `line.trim()` built-in: strip leading and trailing
whitespace.  Defined structurally on the character list so that it is
executable in the kernel. -/
def jsTrim (s : String) : String :=
  String.mk (((s.data.dropWhile isJsWhitespace).reverse.dropWhile isJsWhitespace).reverse)

/-- The JavaScript `line.startsWith("#")` test used for comment lines:
the first character is the comment marker. -/
def startsWithHash (s : String) : Bool :=
  match s.data with
  | [] => false
  | c :: _ => c == '#'

/-- Splitting accumulator for `content.split("\n")`. -/
def splitNlAux : List Char → List Char → List (List Char)
  | [], acc => [acc.reverse]
  | c :: cs, acc =>
    if c == '\n' then acc.reverse :: splitNlAux cs []
    else splitNlAux cs (c :: acc)

/-- The JavaScript `content.split("\n")` built-in. -/
def splitNl (content : String) : List String :=
  (splitNlAux content.data []).map String.mk

/-- Model of `loadPromptsFromFile` on a file content: split on newlines, trim,
drop empty lines and lines starting with the comment marker. -/
def loadPrompts (content : String) : List String :=
  ((splitNl content).map jsTrim).filter
    (fun line => line.length > 0 && !startsWithHash line)

/-- The line filter of `removePromptFromFile`: a line survives the
rewrite when its trimmed text differs from the trimmed prompt or it is
a comment line. -/
def removeLines (lines : List String) (promptToRemove : String) : List String :=
  lines.filter (fun line => jsTrim line != jsTrim promptToRemove || startsWithHash line)

/-- Model of `removePromptFromFile` from the source, with the file content passed
explicitly: `none` models an unreadable file (the `catch` path, which
warns and returns `false`); on readable content the lines are filtered
and rejoined and the function returns `true` unconditionally. -/
def removePromptFromFile (content : Option String) (promptToRemove : String) :
    Bool × Option String :=
  match content with
  | none => (false, none)
  | some c => (true, some (String.intercalate "\n" (removeLines (splitNl c) promptToRemove)))

/-- A line of the file that the remove operation targets: trimmed text
equal to the trimmed prompt and not a comment line. -/
def isPromptMatch (promptToRemove line : String) : Bool :=
  jsTrim line == jsTrim promptToRemove && !startsWithHash line

/-- Number of removable occurrences of a prompt in a file content. -/
def matchingLineCount (content : String) (promptToRemove : String) : Nat :=
  ((splitNl content).filter (isPromptMatch promptToRemove)).length

end Whisk

namespace Whisk

lemma getNextClient_clients (p : Pool) : (getNextClient p).2.clients = p.clients := by
  unfold getNextClient
  split <;> rfl

lemma poolAfter_clients (p : Pool) (k : Nat) : (poolAfter p k).clients = p.clients := by
  induction k with
  | zero => rfl
  | succ k ih => rw [poolAfter, getNextClient_clients, ih]

lemma poolAfter_cursor (cs : List Token) (h : cs ≠ []) (k : Nat) :
    (poolAfter ⟨cs, 0⟩ k).currentTokenIndex = k % cs.length := by
  have hlen : cs.length ≠ 0 := by
    intro h0
    exact h (List.length_eq_zero.mp h0)
  induction k with
  | zero => simp [poolAfter]
  | succ k ih =>
    rw [poolAfter]
    unfold getNextClient
    rw [poolAfter_clients]
    simp only [hlen, if_false]
    rw [ih]
    rw [Nat.mod_add_mod]

lemma poolOut_eq (cs : List Token) (h : cs ≠ []) (k : Nat) :
    poolOut ⟨cs, 0⟩ k = cs.get? (k % cs.length) := by
  have hlen : cs.length ≠ 0 := by
    intro h0
    exact h (List.length_eq_zero.mp h0)
  unfold poolOut getNextClient
  rw [poolAfter_clients]
  simp only [hlen, if_false]
  rw [poolAfter_cursor cs h k]

/-- Claim C6: for every pool of P ≥ 1 tokens starting at cursor 0, P
successive `getNextClient` calls return each token exactly once in pool
order, the (P+1)-th call returns the first token again, and the call
returns null exactly when the pool is empty (for an in-range cursor). -/
theorem claim6_pool_rotation (cs : List Token) (h : cs ≠ []) :
    (∀ k, k < cs.length → poolOut ⟨cs, 0⟩ k = cs.get? k) ∧
    poolOut ⟨cs, 0⟩ cs.length = cs.get? 0 ∧
    (∀ p : Pool, p.clients = [] → (getNextClient p).1 = none) ∧
    (∀ p : Pool, p.currentTokenIndex < p.clients.length →
      ((getNextClient p).1).isSome = true) := by
  refine ⟨?_, ?_, ?_, ?_⟩
  · intro k hk
    rw [poolOut_eq cs h k, Nat.mod_eq_of_lt hk]
  · rw [poolOut_eq cs h, Nat.mod_self]
  · intro p hp
    unfold getNextClient
    simp [hp]
  · intro p hp
    have hlen : p.clients.length ≠ 0 := by omega
    unfold getNextClient
    simp only [hlen, if_false]
    simp [List.get?_eq_getElem?, hp]

/-- Witness for C6 at a concrete three-token pool. -/
theorem claim6_pool_rotation_witness :
    ([⟨"a", "1"⟩, ⟨"b", "2"⟩, ⟨"c", "3"⟩] : List Token) ≠ [] ∧
    poolOut ⟨[⟨"a", "1"⟩, ⟨"b", "2"⟩, ⟨"c", "3"⟩], 0⟩ 1 = some ⟨"b", "2"⟩ ∧
    poolOut ⟨[⟨"a", "1"⟩, ⟨"b", "2"⟩, ⟨"c", "3"⟩], 0⟩ 3 = some ⟨"a", "1"⟩ := by
  have h := claim6_pool_rotation [⟨"a", "1"⟩, ⟨"b", "2"⟩, ⟨"c", "3"⟩] (by decide)
  refine ⟨by decide, ?_, ?_⟩
  · exact (h.1 1 (by decide)).trans (by decide)
  · exact (h.2.1).trans (by decide)

/-- Claim C4 counterexample: the file content consisting of the prompt
on two non-comment lines; one remove call drops both occurrences, so
zero (not one) remain. -/
theorem claim4_counterexample :
    matchingLineCount "a\na" "a" = 2 ∧
    removePromptFromFile (some "a\na") "a" = (true, some "") ∧
    matchingLineCount "" "a" = 0 := by
  refine ⟨by decide, by decide, by decide⟩

lemma filter_not_filter {α : Type} (q : α → Bool) (l : List α) :
    (l.filter (fun a => !(q a))).filter q = [] := by
  induction l with
  | nil => rfl
  | cons x xs ih =>
    cases hx : q x
    · simp only [List.filter, hx, Bool.not_false, ih]
    · simp only [List.filter, hx, Bool.not_true, ih]

/-- Claim C4 amended: the rewrite drops every non-comment line whose
trimmed content equals the trimmed prompt text (not exactly one), so no
removable occurrence survives a single remove call. -/
theorem claim4_remove_drops_all (lines : List String) (promptToRemove : String) :
    removeLines lines promptToRemove =
      lines.filter (fun line => !(isPromptMatch promptToRemove line)) ∧
    (removeLines lines promptToRemove).filter (isPromptMatch promptToRemove) = [] := by
  have hpred : ∀ line : String,
      (jsTrim line != jsTrim promptToRemove || startsWithHash line) =
        !(isPromptMatch promptToRemove line) := by
    intro line
    unfold isPromptMatch
    simp only [bne]
    cases hbe : jsTrim line == jsTrim promptToRemove <;>
      cases hbs : startsWithHash line <;> rfl
  have hmain : removeLines lines promptToRemove =
      lines.filter (fun line => !(isPromptMatch promptToRemove line)) := by
    unfold removeLines
    exact List.filter_congr (fun line _ => hpred line)
  refine ⟨hmain, ?_⟩
  rw [hmain]
  exact filter_not_filter (isPromptMatch promptToRemove) lines

/-- Claim C5 counterexample: a readable file with no matching line still
makes the remove operation return `true`, though nothing was removed. -/
theorem claim5_counterexample :
    matchingLineCount "b" "a" = 0 ∧
    removePromptFromFile (some "b") "a" = (true, some "b") := by
  refine ⟨by decide, by decide⟩

/-- Claim C5 amended: the remove operation returns `true` exactly when
the file was readable — regardless of whether any line matched — and
returns `false` (degrading to a warning) only when reading fails. -/
theorem claim5_remove_return_value (c promptToRemove : String) :
    (removePromptFromFile (some c) promptToRemove).1 = true ∧
    (removePromptFromFile none promptToRemove).1 = false := by
  exact ⟨rfl, rfl⟩

/-- Behavior of the image sink (`saveImage`) over the save loop that
follows one panelled response: either every `saveImage` call succeeds,
or the save numbered `idx` (0-based, in push order) throws — `saveImage`
re-throws any write failure as `Failed to save image: ...`.  Since the
worker's catch inspects the thrown message for 429/401 markers, the
failure also carries that classification flag. -/
inductive SaveBehavior where
  | allOk
  | failAt (idx : Nat) (api : Bool)
deriving DecidableEq, Repr

/-- Outcome of one `client.generateImage` call, as classified by the
worker loop: a returned `{Err}` object, a returned `{Ok}` object with
its `imagePanels` (each panel a list of generated images, stood for by
numbers) together with how the image sink behaves while the response's
images are being saved, or a thrown exception.  For the two error
forms, the flag records whether the message contains a 429/401
marker. -/
inductive CallOutcome where
  | errRes (api : Bool)
  | okRes (imagePanels : List (List Nat)) (sink : SaveBehavior)
  | exn (api : Bool)
deriving DecidableEq, Repr

/-- Whether the save loop over `count` images hits a throwing
`saveImage` call: a `failAt idx` beyond the number of images present
never triggers, because that save is never attempted. -/
def saveFails : SaveBehavior → Nat → Option (Nat × Bool)
  | SaveBehavior.allOk, _ => none
  | SaveBehavior.failAt idx api, count => if idx < count then some (idx, api) else none

/-- A call outcome whose save loop cannot throw. -/
def noSinkFailure : CallOutcome → Bool
  | CallOutcome.okRes _ SaveBehavior.allOk => true
  | CallOutcome.okRes _ (SaveBehavior.failAt _ _) => false
  | _ => true

/-- The app state a worker reads and mutates: the shared client pool,
the prompt file content (`none` when the file is unreadable), and a
running count of `generateImage` calls issued, used to index the
outcome oracle. -/
structure AppSt where
  pool : Pool
  promptFile : Option String
  calls : Nat
deriving DecidableEq, Repr

/-- The per-worker `results` accumulator. -/
structure WResults where
  success : Nat
  failed : Nat
  images : List Nat
  completedPrompts : List String
  failedPrompts : List String
deriving DecidableEq, Repr

/-- Helper: `this.getNextClient()` acting on the app state. -/
def drawClient (st : AppSt) : Option Token × AppSt :=
  ((getNextClient st.pool).1, { st with pool := (getNextClient st.pool).2 })

/-- A call outcome on which the worker's success branch fires: an `Ok`
result whose `imagePanels` array is non-empty. -/
def isApiSuccess : CallOutcome → Bool
  | CallOutcome.okRes imagePanels _ => imagePanels.length != 0
  | _ => false

/-- A call outcome whose message carries a 429/401 marker, which sets
the per-prompt `promptHadApiError` flag. -/
def isApiClassified : CallOutcome → Bool
  | CallOutcome.errRes api => api
  | CallOutcome.exn api => api
  | CallOutcome.okRes _ _ => false

/-- The worker's per-prompt retry loop
(`while (!success && attempts < maxAttempts)`), with the oracle giving
each call's outcome.  `fuel` is `maxAttempts - attempts`, making the
loop structurally recursive; each iteration draws a client (breaking
with `failed++` when none is available), issues one call, and on
failure increments `attempts`, pushing the prompt into `failedPrompts`
once the attempt budget is exhausted.  On a panelled response the
response's images are saved one by one; when a save throws, the images
pushed before it stay in `results.images`, the worker's catch treats
the attempt as failed (checking the thrown message for 429/401), and
`success` is never incremented.  When every save succeeds the prompt is
removed from the file, counters are updated, and the
`promptHadApiError` flag is reset.  Returns the final app state, the
results, and the flag. -/
def runAttempts (oracle : Nat → CallOutcome) (prompt : String) (maxAttempts : Nat) :
    Nat → Nat → AppSt → WResults → Bool → AppSt × WResults × Bool
  | 0, _, st, res, hadApiError => (st, res, hadApiError)
  | fuel + 1, attempts, st, res, hadApiError =>
    match (drawClient st).1 with
    | none => ((drawClient st).2, { res with failed := res.failed + 1 }, hadApiError)
    | some _ =>
      match oracle st.calls with
      | CallOutcome.errRes api =>
        if attempts + 1 ≥ maxAttempts then
          ({ (drawClient st).2 with calls := st.calls + 1 },
           { res with failed := res.failed + 1,
                      failedPrompts := res.failedPrompts ++ [prompt] },
           hadApiError || api)
        else
          runAttempts oracle prompt maxAttempts fuel (attempts + 1)
            { (drawClient st).2 with calls := st.calls + 1 } res (hadApiError || api)
      | CallOutcome.okRes imagePanels sink =>
        if imagePanels.length = 0 then
          if attempts + 1 ≥ maxAttempts then
            ({ (drawClient st).2 with calls := st.calls + 1 },
             { res with failed := res.failed + 1,
                        failedPrompts := res.failedPrompts ++ [prompt] },
             hadApiError)
          else
            runAttempts oracle prompt maxAttempts fuel (attempts + 1)
              { (drawClient st).2 with calls := st.calls + 1 } res hadApiError
        else
          match saveFails sink imagePanels.flatten.length with
          | some fail =>
            if attempts + 1 ≥ maxAttempts then
              ({ (drawClient st).2 with calls := st.calls + 1 },
               { res with failed := res.failed + 1,
                          images := res.images ++ imagePanels.flatten.take fail.1,
                          failedPrompts := res.failedPrompts ++ [prompt] },
               hadApiError || fail.2)
            else
              runAttempts oracle prompt maxAttempts fuel (attempts + 1)
                { (drawClient st).2 with calls := st.calls + 1 }
                { res with images := res.images ++ imagePanels.flatten.take fail.1 }
                (hadApiError || fail.2)
          | none =>
            ({ (drawClient st).2 with
                 calls := st.calls + 1,
                 promptFile := (removePromptFromFile st.promptFile prompt).2 },
             { res with success := res.success + imagePanels.flatten.length,
                        images := res.images ++ imagePanels.flatten,
                        completedPrompts := res.completedPrompts ++ [prompt] },
             false)
      | CallOutcome.exn api =>
        if attempts + 1 ≥ maxAttempts then
          ({ (drawClient st).2 with calls := st.calls + 1 },
           { res with failed := res.failed + 1,
                      failedPrompts := res.failedPrompts ++ [prompt] },
           hadApiError || api)
        else
          runAttempts oracle prompt maxAttempts fuel (attempts + 1)
            { (drawClient st).2 with calls := st.calls + 1 } res (hadApiError || api)

/-- One prompt's full processing inside `generateImagesWorker`: the
extra `getNextClient()` draw made before the loop, the attempt budget
`maxAttempts = clients.length > 0 ? clients.length : 1`, then the retry
loop starting with `attempts = 0` and a clear flag. -/
def processPrompt (oracle : Nat → CallOutcome) (prompt : String) (st : AppSt)
    (res : WResults) : AppSt × WResults × Bool :=
  runAttempts oracle prompt
    (if st.pool.clients.length > 0 then st.pool.clients.length else 1)
    (if st.pool.clients.length > 0 then st.pool.clients.length else 1)
    0 (drawClient st).2 res false

/-- The breaker threshold `MAX_CONSECUTIVE_PROMPT_ERRORS`. -/
def MAX_CONSECUTIVE_PROMPT_ERRORS : Nat := 3

/-- The worker's main prompt loop: process each assigned prompt in
order; when the prompt's flag is set, bump the consecutive-error streak
and, at the threshold, push every remaining prompt into `failedPrompts`
(counting each as failed) and return early; otherwise reset the streak
to 0 and continue. -/
def workerLoop (oracle : Nat → CallOutcome) :
    List String → AppSt → WResults → Nat → AppSt × WResults
  | [], st, res, _ => (st, res)
  | prompt :: rest, st, res, streak =>
    if (processPrompt oracle prompt st res).2.2 then
      if streak + 1 ≥ MAX_CONSECUTIVE_PROMPT_ERRORS then
        ((processPrompt oracle prompt st res).1,
         { (processPrompt oracle prompt st res).2.1 with
             failed := (processPrompt oracle prompt st res).2.1.failed + rest.length,
             failedPrompts :=
               (processPrompt oracle prompt st res).2.1.failedPrompts ++ rest })
      else
        workerLoop oracle rest (processPrompt oracle prompt st res).1
          (processPrompt oracle prompt st res).2.1 (streak + 1)
    else
      workerLoop oracle rest (processPrompt oracle prompt st res).1
        (processPrompt oracle prompt st res).2.1 0

/-- The zero-initialised `results` object. -/
def emptyResults : WResults := ⟨0, 0, [], [], []⟩

/-- Model of `generateImagesWorker` from the full-featured variant: run the
worker loop over the assigned prompt slice with fresh results and a
zero consecutive-error streak. -/
def generateImagesWorker (oracle : Nat → CallOutcome) (prompts : List String)
    (st : AppSt) : AppSt × WResults :=
  workerLoop oracle prompts st emptyResults 0

/-- The per-worker results of the simpler `index.js` variant, which has
no retry loop and no ledger. -/
structure WResultsSimple where
  success : Nat
  failed : Nat
  images : List Nat
deriving DecidableEq, Repr

/-- Model of `generateImagesWorker` from `index.js`: one call per prompt; `Err`,
empty panels, and thrown errors each count one failure, a panelled `Ok`
saves the generated images one by one and, when every save succeeds,
adds the saved count to `success`; a save that throws mid-loop leaves
the earlier pushes in `images` and the prompt counts as failed. -/
def generateImagesWorkerSimple (oracle : Nat → CallOutcome) :
    List String → Nat → WResultsSimple → WResultsSimple
  | [], _, res => res
  | _ :: rest, calls, res =>
    match oracle calls with
    | CallOutcome.errRes _ =>
      generateImagesWorkerSimple oracle rest (calls + 1) { res with failed := res.failed + 1 }
    | CallOutcome.exn _ =>
      generateImagesWorkerSimple oracle rest (calls + 1) { res with failed := res.failed + 1 }
    | CallOutcome.okRes imagePanels sink =>
      if imagePanels.length = 0 then
        generateImagesWorkerSimple oracle rest (calls + 1) { res with failed := res.failed + 1 }
      else
        match saveFails sink imagePanels.flatten.length with
        | some fail =>
          generateImagesWorkerSimple oracle rest (calls + 1)
            { res with failed := res.failed + 1,
                       images := res.images ++ imagePanels.flatten.take fail.1 }
        | none =>
          generateImagesWorkerSimple oracle rest (calls + 1)
            { res with success := res.success + imagePanels.flatten.length,
                       images := res.images ++ imagePanels.flatten }

/-- The orchestrator's round-robin distribution loop
(`prompts.forEach((prompt, index) => ...push...)`), shared verbatim by
both variants. -/
def distributeAux (workerCount : Nat) :
    List String → Nat → List (List String) → List (List String)
  | [], _, acc => acc
  | prompt :: rest, idx, acc =>
    distributeAux workerCount rest (idx + 1)
      (acc.set (idx % workerCount) (acc.getD (idx % workerCount) [] ++ [prompt]))

/-- Prompt partitioning in `generateImages`: `workerCount` empty
slices, then the round-robin distribution starting at index 0. -/
def distributePrompts (prompts : List String) (workerCount : Nat) : List (List String) :=
  distributeAux workerCount prompts 0 (List.replicate workerCount [])

end Whisk

namespace Whisk

lemma drawClient_clients (st : AppSt) : (drawClient st).2.pool.clients = st.pool.clients :=
  getNextClient_clients st.pool

lemma drawClient_calls (st : AppSt) : (drawClient st).2.calls = st.calls := rfl

lemma drawClient_promptFile (st : AppSt) : (drawClient st).2.promptFile = st.promptFile := rfl

lemma getNextClient_cursor_lt (p : Pool) (h : p.currentTokenIndex < p.clients.length) :
    (getNextClient p).2.currentTokenIndex < (getNextClient p).2.clients.length := by
  have hlen : p.clients.length ≠ 0 := by omega
  unfold getNextClient
  simp only [hlen, if_false]
  exact Nat.mod_lt _ (by omega)

lemma getNextClient_isSome (p : Pool) (h : p.currentTokenIndex < p.clients.length) :
    ((getNextClient p).1).isSome = true := by
  have hlen : p.clients.length ≠ 0 := by omega
  unfold getNextClient
  simp only [hlen, if_false]
  simp [List.get?_eq_getElem?, h]

/-- Structural dichotomy of the retry loop: either the prompt never
succeeds — then `completedPrompts` and the prompt file are untouched
and a set `promptHadApiError` flag stays set — or it succeeds, in which
case the prompt is appended to `completedPrompts`, exactly one ledger
removal is applied, and the flag is reset. -/
lemma runAttempts_master (oracle : Nat → CallOutcome) (prompt : String) (maxAttempts : Nat) :
    ∀ (fuel attempts : Nat) (st : AppSt) (res : WResults) (hadApiError : Bool),
    ((runAttempts oracle prompt maxAttempts fuel attempts st res hadApiError).2.1.completedPrompts
        = res.completedPrompts ∧
      (runAttempts oracle prompt maxAttempts fuel attempts st res hadApiError).1.promptFile
        = st.promptFile ∧
      (hadApiError = true →
        (runAttempts oracle prompt maxAttempts fuel attempts st res hadApiError).2.2 = true)) ∨
    ((runAttempts oracle prompt maxAttempts fuel attempts st res hadApiError).2.1.completedPrompts
        = res.completedPrompts ++ [prompt] ∧
      (runAttempts oracle prompt maxAttempts fuel attempts st res hadApiError).1.promptFile
        = (removePromptFromFile st.promptFile prompt).2 ∧
      (runAttempts oracle prompt maxAttempts fuel attempts st res hadApiError).2.2 = false) := by
  intro fuel
  induction fuel with
  | zero =>
    intro attempts st res hadApiError
    left
    exact ⟨rfl, rfl, fun h => h⟩
  | succ fuel ih =>
    intro attempts st res hadApiError
    rw [runAttempts]
    cases hdc : (drawClient st).1 with
    | none =>
      left
      exact ⟨rfl, drawClient_promptFile st, fun h => h⟩
    | some tok =>
      cases horc : oracle st.calls with
      | errRes api =>
        by_cases hm : attempts + 1 ≥ maxAttempts
        · simp only [if_pos hm]
          left
          refine ⟨?_, ?_, ?_⟩ <;>
            first
              | trivial
              | rfl
              | exact drawClient_promptFile st
              | (intro h; simp [h])
        · simp only [if_neg hm]
          have := ih (attempts + 1) { (drawClient st).2 with calls := st.calls + 1 } res
            (hadApiError || api)
          rcases this with ⟨h1, h2, h3⟩ | ⟨h1, h2, h3⟩
          · left
            refine ⟨h1, ?_, fun h => h3 (by simp [h])⟩
            rw [h2]
            exact drawClient_promptFile st
          · right
            refine ⟨h1, ?_, h3⟩
            rw [h2]
            rw [show ({ (drawClient st).2 with calls := st.calls + 1 } : AppSt).promptFile
              = st.promptFile from drawClient_promptFile st]
      | okRes imagePanels sink =>
        by_cases hz : imagePanels.length = 0
        · simp only [if_pos hz]
          by_cases hm : attempts + 1 ≥ maxAttempts
          · simp only [if_pos hm]
            left
            refine ⟨?_, ?_, ?_⟩ <;>
              first
                | trivial
                | rfl
                | exact drawClient_promptFile st
                | exact fun h => h
          · simp only [if_neg hm]
            have := ih (attempts + 1) { (drawClient st).2 with calls := st.calls + 1 } res
              hadApiError
            rcases this with ⟨h1, h2, h3⟩ | ⟨h1, h2, h3⟩
            · left
              exact ⟨h1, h2.trans (drawClient_promptFile st), h3⟩
            · right
              refine ⟨h1, ?_, h3⟩
              rw [h2]
              rw [show ({ (drawClient st).2 with calls := st.calls + 1 } : AppSt).promptFile
                = st.promptFile from drawClient_promptFile st]
        · simp only [if_neg hz]
          cases hsf : saveFails sink imagePanels.flatten.length with
          | none =>
            right
            exact ⟨rfl, rfl, rfl⟩
          | some fail =>
            by_cases hm : attempts + 1 ≥ maxAttempts
            · simp only [if_pos hm]
              left
              refine ⟨?_, ?_, ?_⟩ <;>
                first
                  | trivial
                  | rfl
                  | exact drawClient_promptFile st
                  | (intro h; simp [h])
            · simp only [if_neg hm]
              have := ih (attempts + 1) { (drawClient st).2 with calls := st.calls + 1 }
                { res with images := res.images ++ imagePanels.flatten.take fail.1 }
                (hadApiError || fail.2)
              rcases this with ⟨h1, h2, h3⟩ | ⟨h1, h2, h3⟩
              · left
                refine ⟨h1, ?_, fun h => h3 (by simp [h])⟩
                rw [h2]
                exact drawClient_promptFile st
              · right
                refine ⟨h1, ?_, h3⟩
                rw [h2]
                rw [show ({ (drawClient st).2 with calls := st.calls + 1 } : AppSt).promptFile
                  = st.promptFile from drawClient_promptFile st]
      | exn api =>
        by_cases hm : attempts + 1 ≥ maxAttempts
        · simp only [if_pos hm]
          left
          refine ⟨?_, ?_, ?_⟩ <;>
            first
              | trivial
              | rfl
              | exact drawClient_promptFile st
              | (intro h; simp [h])
        · simp only [if_neg hm]
          have := ih (attempts + 1) { (drawClient st).2 with calls := st.calls + 1 } res
            (hadApiError || api)
          rcases this with ⟨h1, h2, h3⟩ | ⟨h1, h2, h3⟩
          · left
            refine ⟨h1, ?_, fun h => h3 (by simp [h])⟩
            rw [h2]
            exact drawClient_promptFile st
          · right
            refine ⟨h1, ?_, h3⟩
            rw [h2]
            rw [show ({ (drawClient st).2 with calls := st.calls + 1 } : AppSt).promptFile
              = st.promptFile from drawClient_promptFile st]

end Whisk

namespace Whisk

/-- One ledger rewrite, as applied by the worker's success branch. -/
def removeStep (content : Option String) (prompt : String) : Option String :=
  (removePromptFromFile content prompt).2

lemma processPrompt_cases (oracle : Nat → CallOutcome) (prompt : String) (st : AppSt)
    (res : WResults) :
    ((processPrompt oracle prompt st res).2.1.completedPrompts = res.completedPrompts ∧
      (processPrompt oracle prompt st res).1.promptFile = st.promptFile) ∨
    ((processPrompt oracle prompt st res).2.1.completedPrompts
        = res.completedPrompts ++ [prompt] ∧
      (processPrompt oracle prompt st res).1.promptFile
        = (removePromptFromFile st.promptFile prompt).2 ∧
      (processPrompt oracle prompt st res).2.2 = false) := by
  unfold processPrompt
  have h := runAttempts_master oracle prompt
    (if st.pool.clients.length > 0 then st.pool.clients.length else 1)
    (if st.pool.clients.length > 0 then st.pool.clients.length else 1)
    0 (drawClient st).2 res false
  rcases h with ⟨h1, h2, _⟩ | ⟨h1, h2, h3⟩
  · left
    exact ⟨h1, h2.trans (drawClient_promptFile st)⟩
  · right
    refine ⟨h1, ?_, h3⟩
    rw [h2, drawClient_promptFile st]

lemma workerLoop_ledger (oracle : Nat → CallOutcome) :
    ∀ (prompts : List String) (st : AppSt) (res : WResults) (streak : Nat),
    ∃ newC : List String,
      (workerLoop oracle prompts st res streak).2.completedPrompts
        = res.completedPrompts ++ newC ∧
      (workerLoop oracle prompts st res streak).1.promptFile
        = newC.foldl removeStep st.promptFile := by
  intro prompts
  induction prompts with
  | nil =>
    intro st res streak
    exact ⟨[], by simp [workerLoop]⟩
  | cons prompt rest ih =>
    intro st res streak
    cases hflag : (processPrompt oracle prompt st res).2.2 with
    | true =>
      by_cases hts : streak + 1 ≥ MAX_CONSECUTIVE_PROMPT_ERRORS
      · rcases processPrompt_cases oracle prompt st res with ⟨h1, h2⟩ | ⟨_, _, h3⟩
        · refine ⟨[], ?_, ?_⟩
          · simp only [workerLoop, hflag, if_true, if_pos hts]
            simpa using h1
          · simp only [workerLoop, hflag, if_true, if_pos hts]
            simpa using h2
        · rw [h3] at hflag
          cases hflag
      · rcases processPrompt_cases oracle prompt st res with ⟨h1, h2⟩ | ⟨_, _, h3⟩
        · obtain ⟨newC, hc, hf⟩ :=
            ih (processPrompt oracle prompt st res).1
              (processPrompt oracle prompt st res).2.1 (streak + 1)
          refine ⟨newC, ?_, ?_⟩
          · simp only [workerLoop, hflag, if_true, if_neg hts]
            rw [hc, h1]
          · simp only [workerLoop, hflag, if_true, if_neg hts]
            rw [hf, h2]
        · rw [h3] at hflag
          cases hflag
    | false =>
      obtain ⟨newC, hc, hf⟩ :=
        ih (processPrompt oracle prompt st res).1
          (processPrompt oracle prompt st res).2.1 0
      rcases processPrompt_cases oracle prompt st res with ⟨h1, h2⟩ | ⟨h1, h2, _⟩
      · refine ⟨newC, ?_, ?_⟩
        · simp only [workerLoop, hflag, Bool.false_eq_true, if_false]
          rw [hc, h1]
        · simp only [workerLoop, hflag, Bool.false_eq_true, if_false]
          rw [hf, h2]
      · refine ⟨prompt :: newC, ?_, ?_⟩
        · simp only [workerLoop, hflag, Bool.false_eq_true, if_false]
          rw [hc, h1]
          simp
        · simp only [workerLoop, hflag, Bool.false_eq_true, if_false]
          rw [hf, h2]
          rfl

/-- Claim C1 counterexample: one token, a file holding the single
prompt `a`, and a remote that always fails with a non-API error.  The
prompt reaches the terminal outcome Abandoned (it is counted failed and
recorded in `failedPrompts`), yet it is NOT removed from the backing
file: the file still contains a pending match when the report is made. -/
theorem claim1_counterexample :
    (generateImagesWorker (fun _ => CallOutcome.errRes false) ["a"]
        ⟨⟨[⟨"t", "s"⟩], 0⟩, some "a", 0⟩).2.failedPrompts = ["a"] ∧
    (generateImagesWorker (fun _ => CallOutcome.errRes false) ["a"]
        ⟨⟨[⟨"t", "s"⟩], 0⟩, some "a", 0⟩).2.failed = 1 ∧
    (generateImagesWorker (fun _ => CallOutcome.errRes false) ["a"]
        ⟨⟨[⟨"t", "s"⟩], 0⟩, some "a", 0⟩).1.promptFile = some "a" ∧
    matchingLineCount "a" "a" = 1 := by
  refine ⟨by decide, by decide, by decide, by decide⟩

/-- Claim C1 amended: the final prompt file equals the initial file
with one ledger removal applied per SUCCESSFUL prompt, in completion
order — prompts abandoned after exhausting their attempts (and prompts
never attempted) are not removed and remain pending. -/
theorem claim1_only_successes_removed (oracle : Nat → CallOutcome)
    (prompts : List String) (st : AppSt) :
    (generateImagesWorker oracle prompts st).1.promptFile
      = ((generateImagesWorker oracle prompts st).2.completedPrompts).foldl
          removeStep st.promptFile := by
  obtain ⟨newC, hc, hf⟩ := workerLoop_ledger oracle prompts st emptyResults 0
  unfold generateImagesWorker
  rw [hf]
  have : newC = (workerLoop oracle prompts st emptyResults 0).2.completedPrompts := by
    rw [hc]
    rfl
  rw [this]

end Whisk

namespace Whisk

/-- Claim C2: once the per-prompt API-error flag is set at a streak
already at `MAX_CONSECUTIVE_PROMPT_ERRORS - 1`, the worker stops at
that prompt: every remaining unattempted prompt is appended to
`failedPrompts` and counted in `failed`, and the returned app state is
exactly the state after the tripping prompt — so no generation call is
issued for the remaining prompts and none of them is removed from the
ledger. -/
theorem claim2_circuit_breaker (oracle : Nat → CallOutcome) (prompt : String)
    (rest : List String) (st : AppSt) (res : WResults) (streak : Nat)
    (hs : streak + 1 ≥ MAX_CONSECUTIVE_PROMPT_ERRORS)
    (he : (processPrompt oracle prompt st res).2.2 = true) :
    workerLoop oracle (prompt :: rest) st res streak =
      ((processPrompt oracle prompt st res).1,
       { (processPrompt oracle prompt st res).2.1 with
           failed := (processPrompt oracle prompt st res).2.1.failed + rest.length,
           failedPrompts :=
             (processPrompt oracle prompt st res).2.1.failedPrompts ++ rest }) := by
  simp only [workerLoop, he, if_true, if_pos hs]

/-- Witness for C2: one always-rate-limited token, streak already at 2;
the worker dumps the remaining prompt and returns early. -/
theorem claim2_circuit_breaker_witness :
    2 + 1 ≥ MAX_CONSECUTIVE_PROMPT_ERRORS ∧
    (processPrompt (fun _ => CallOutcome.errRes true) "c"
        ⟨⟨[⟨"t", "s"⟩], 0⟩, some "c\nd", 0⟩ emptyResults).2.2 = true ∧
    workerLoop (fun _ => CallOutcome.errRes true) ["c", "d"]
        ⟨⟨[⟨"t", "s"⟩], 0⟩, some "c\nd", 0⟩ emptyResults 2 =
      ((processPrompt (fun _ => CallOutcome.errRes true) "c"
          ⟨⟨[⟨"t", "s"⟩], 0⟩, some "c\nd", 0⟩ emptyResults).1,
       { (processPrompt (fun _ => CallOutcome.errRes true) "c"
            ⟨⟨[⟨"t", "s"⟩], 0⟩, some "c\nd", 0⟩ emptyResults).2.1 with
           failed := (processPrompt (fun _ => CallOutcome.errRes true) "c"
              ⟨⟨[⟨"t", "s"⟩], 0⟩, some "c\nd", 0⟩ emptyResults).2.1.failed
                + ["d"].length,
           failedPrompts := (processPrompt (fun _ => CallOutcome.errRes true) "c"
              ⟨⟨[⟨"t", "s"⟩], 0⟩, some "c\nd", 0⟩ emptyResults).2.1.failedPrompts
                ++ ["d"] }) :=
  ⟨by decide, by decide,
    claim2_circuit_breaker (fun _ => CallOutcome.errRes true) "c" ["d"]
      ⟨⟨[⟨"t", "s"⟩], 0⟩, some "c\nd", 0⟩ emptyResults 2 (by decide) (by decide)⟩

lemma runAttempts_all_fail (oracle : Nat → CallOutcome) (prompt : String)
    (maxAttempts : Nat) (hfail : ∀ k, isApiSuccess (oracle k) = false) :
    ∀ (fuel attempts : Nat) (st : AppSt) (res : WResults) (hadApiError : Bool),
    fuel + attempts = maxAttempts → 1 ≤ fuel →
    st.pool.currentTokenIndex < st.pool.clients.length →
    (runAttempts oracle prompt maxAttempts fuel attempts st res hadApiError).1.calls
        = st.calls + fuel ∧
    (runAttempts oracle prompt maxAttempts fuel attempts st res hadApiError).2.1.failedPrompts
        = res.failedPrompts ++ [prompt] ∧
    (runAttempts oracle prompt maxAttempts fuel attempts st res hadApiError).2.1.failed
        = res.failed + 1 := by
  intro fuel
  induction fuel with
  | zero =>
    intro attempts st res hadApiError _ h1
    omega
  | succ fuel ih =>
    intro attempts st res hadApiError hsum _ hwf
    have hsome : ((drawClient st).1).isSome = true := getNextClient_isSome st.pool hwf
    rw [runAttempts]
    cases hdc : (drawClient st).1 with
    | none =>
      rw [hdc] at hsome
      cases hsome
    | some tok =>
      cases horc : oracle st.calls with
      | errRes api =>
        by_cases hm : attempts + 1 ≥ maxAttempts
        · simp only [if_pos hm]
          have hf0 : fuel = 0 := by omega
          subst hf0
          simp
        · simp only [if_neg hm]
          have h := ih (attempts + 1) { (drawClient st).2 with calls := st.calls + 1 } res
            (hadApiError || api) (by omega) (by omega) (getNextClient_cursor_lt st.pool hwf)
          refine ⟨?_, h.2.1, h.2.2⟩
          rw [h.1]
          show st.calls + 1 + fuel = st.calls + (fuel + 1)
          omega
      | okRes imagePanels sink =>
        have hz : imagePanels.length = 0 := by
          have h := hfail st.calls
          rw [horc] at h
          unfold isApiSuccess at h
          simpa using h
        simp only [if_pos hz]
        by_cases hm : attempts + 1 ≥ maxAttempts
        · simp only [if_pos hm]
          have hf0 : fuel = 0 := by omega
          subst hf0
          simp
        · simp only [if_neg hm]
          have h := ih (attempts + 1) { (drawClient st).2 with calls := st.calls + 1 } res
            hadApiError (by omega) (by omega) (getNextClient_cursor_lt st.pool hwf)
          refine ⟨?_, h.2.1, h.2.2⟩
          rw [h.1]
          show st.calls + 1 + fuel = st.calls + (fuel + 1)
          omega
      | exn api =>
        by_cases hm : attempts + 1 ≥ maxAttempts
        · simp only [if_pos hm]
          have hf0 : fuel = 0 := by omega
          subst hf0
          simp
        · simp only [if_neg hm]
          have h := ih (attempts + 1) { (drawClient st).2 with calls := st.calls + 1 } res
            (hadApiError || api) (by omega) (by omega) (getNextClient_cursor_lt st.pool hwf)
          refine ⟨?_, h.2.1, h.2.2⟩
          rw [h.1]
          show st.calls + 1 + fuel = st.calls + (fuel + 1)
          omega

/-- Claim C3: with a non-empty pool of P clients (and an in-range
cursor), a prompt for which no call ever succeeds consumes exactly
`max(1, P)` generation calls, after which it is counted failed and
recorded in `failedPrompts`. -/
theorem claim3_attempt_budget (oracle : Nat → CallOutcome) (prompt : String)
    (st : AppSt) (res : WResults)
    (h1 : st.pool.clients ≠ [])
    (h2 : st.pool.currentTokenIndex < st.pool.clients.length)
    (h3 : ∀ k, isApiSuccess (oracle k) = false) :
    (processPrompt oracle prompt st res).1.calls
        = st.calls + max 1 st.pool.clients.length ∧
    (processPrompt oracle prompt st res).2.1.failedPrompts
        = res.failedPrompts ++ [prompt] ∧
    (processPrompt oracle prompt st res).2.1.failed = res.failed + 1 := by
  have hP : 0 < st.pool.clients.length := List.length_pos.mpr h1
  have hmax : max 1 st.pool.clients.length = st.pool.clients.length :=
    Nat.max_eq_right hP
  unfold processPrompt
  simp only [if_pos hP]
  have hwf : ((drawClient st).2).pool.currentTokenIndex
      < ((drawClient st).2).pool.clients.length := getNextClient_cursor_lt st.pool h2
  have h := runAttempts_all_fail oracle prompt st.pool.clients.length h3
    st.pool.clients.length 0 (drawClient st).2 res false (by omega) (by omega) hwf
  refine ⟨?_, h.2.1, h.2.2⟩
  rw [h.1, hmax]
  rfl

/-- Witness for C3: two tokens, every call a non-API error; the prompt
burns exactly two calls then is abandoned. -/
theorem claim3_attempt_budget_witness :
    (([⟨"t", "s"⟩, ⟨"u", "v"⟩] : List Token) ≠ []) ∧
    (processPrompt (fun _ => CallOutcome.errRes false) "a"
        ⟨⟨[⟨"t", "s"⟩, ⟨"u", "v"⟩], 0⟩, some "a", 0⟩ emptyResults).1.calls = 0 + max 1 2 ∧
    (processPrompt (fun _ => CallOutcome.errRes false) "a"
        ⟨⟨[⟨"t", "s"⟩, ⟨"u", "v"⟩], 0⟩, some "a", 0⟩ emptyResults).2.1.failedPrompts
      = emptyResults.failedPrompts ++ ["a"] := by
  have h := claim3_attempt_budget (fun _ => CallOutcome.errRes false) "a"
    ⟨⟨[⟨"t", "s"⟩, ⟨"u", "v"⟩], 0⟩, some "a", 0⟩ emptyResults
    (by decide) (by decide) (fun _ => rfl)
  exact ⟨by decide, h.1, h.2.1⟩

lemma processPrompt_no_tokens (oracle : Nat → CallOutcome) (prompt : String)
    (st : AppSt) (res : WResults) (h : st.pool.clients = []) :
    processPrompt oracle prompt st res = (st, { res with failed := res.failed + 1 }, false) := by
  have hlen : st.pool.clients.length = 0 := by rw [h]; rfl
  simp [processPrompt, runAttempts, drawClient, getNextClient, hlen]

lemma workerLoop_no_tokens (oracle : Nat → CallOutcome) (st : AppSt)
    (h : st.pool.clients = []) :
    ∀ (prompts : List String) (res : WResults) (streak : Nat),
    workerLoop oracle prompts st res streak
      = (st, { res with failed := res.failed + prompts.length }) := by
  intro prompts
  induction prompts with
  | nil =>
    intro res streak
    show (st, res) = (st, { res with failed := res.failed + 0 })
    cases res
    simp
  | cons prompt rest ih =>
    intro res streak
    rw [workerLoop]
    rw [processPrompt_no_tokens oracle prompt st res h]
    simp only [Bool.false_eq_true, if_false]
    rw [ih { res with failed := res.failed + 1 } 0]
    cases res
    simp
    omega

/-- Claim C9: with an empty credential pool, every assigned prompt is
abandoned for lack of tokens and counted failed, no generation call is
ever issued (the whole app state, call counter included, is unchanged),
nothing succeeds, and nothing is removed from the ledger. -/
theorem claim9_empty_pool (oracle : Nat → CallOutcome) (prompts : List String)
    (st : AppSt) (h : st.pool.clients = []) :
    (generateImagesWorker oracle prompts st).1 = st ∧
    (generateImagesWorker oracle prompts st).2.failed = prompts.length ∧
    (generateImagesWorker oracle prompts st).2.success = 0 ∧
    (generateImagesWorker oracle prompts st).2.completedPrompts = [] ∧
    (generateImagesWorker oracle prompts st).2.images = [] := by
  unfold generateImagesWorker
  rw [workerLoop_no_tokens oracle st h prompts emptyResults 0]
  exact ⟨rfl, by simp [emptyResults], rfl, rfl, rfl⟩

/-- Witness for C9: empty pool, two prompts; both fail, zero calls. -/
theorem claim9_empty_pool_witness :
    (⟨⟨[], 0⟩, some "a\nb", 0⟩ : AppSt).pool.clients = [] ∧
    (generateImagesWorker (fun _ => CallOutcome.okRes [[1]] SaveBehavior.allOk) ["a", "b"]
        ⟨⟨[], 0⟩, some "a\nb", 0⟩).2.failed = ["a", "b"].length ∧
    (generateImagesWorker (fun _ => CallOutcome.okRes [[1]] SaveBehavior.allOk) ["a", "b"]
        ⟨⟨[], 0⟩, some "a\nb", 0⟩).1 = ⟨⟨[], 0⟩, some "a\nb", 0⟩ := by
  have h := claim9_empty_pool (fun _ => CallOutcome.okRes [[1]] SaveBehavior.allOk) ["a", "b"]
    ⟨⟨[], 0⟩, some "a\nb", 0⟩ rfl
  exact ⟨rfl, h.2.1, h.1⟩

end Whisk

namespace Whisk

lemma runAttempts_success_le (oracle : Nat → CallOutcome) (prompt : String)
    (maxAttempts : Nat) :
    ∀ (fuel attempts : Nat) (st : AppSt) (res : WResults) (hadApiError : Bool),
    res.success ≤ res.images.length →
    (runAttempts oracle prompt maxAttempts fuel attempts st res hadApiError).2.1.success
      ≤ (runAttempts oracle prompt maxAttempts fuel attempts st res hadApiError).2.1.images.length := by
  intro fuel
  induction fuel with
  | zero =>
    intro attempts st res hadApiError hres
    exact hres
  | succ fuel ih =>
    intro attempts st res hadApiError hres
    rw [runAttempts]
    cases hdc : (drawClient st).1 with
    | none => exact hres
    | some tok =>
      cases horc : oracle st.calls with
      | errRes api =>
        by_cases hm : attempts + 1 ≥ maxAttempts
        · simp only [if_pos hm]
          exact hres
        · simp only [if_neg hm]
          exact ih (attempts + 1) _ res (hadApiError || api) hres
      | okRes imagePanels sink =>
        by_cases hz : imagePanels.length = 0
        · simp only [if_pos hz]
          by_cases hm : attempts + 1 ≥ maxAttempts
          · simp only [if_pos hm]
            exact hres
          · simp only [if_neg hm]
            exact ih (attempts + 1) _ res hadApiError hres
        · simp only [if_neg hz]
          cases hsf : saveFails sink imagePanels.flatten.length with
          | some fail =>
            by_cases hm : attempts + 1 ≥ maxAttempts
            · simp only [if_pos hm]
              show res.success ≤ (res.images ++ imagePanels.flatten.take fail.1).length
              rw [List.length_append]
              omega
            · simp only [if_neg hm]
              refine ih (attempts + 1) _ _ (hadApiError || fail.2) ?_
              show res.success ≤ (res.images ++ imagePanels.flatten.take fail.1).length
              rw [List.length_append]
              omega
          | none =>
            show res.success + imagePanels.flatten.length
              ≤ (res.images ++ imagePanels.flatten).length
            rw [List.length_append]
            omega
      | exn api =>
        by_cases hm : attempts + 1 ≥ maxAttempts
        · simp only [if_pos hm]
          exact hres
        · simp only [if_neg hm]
          exact ih (attempts + 1) _ res (hadApiError || api) hres

lemma runAttempts_success_eq (oracle : Nat → CallOutcome) (prompt : String)
    (maxAttempts : Nat) (hsink : ∀ k, noSinkFailure (oracle k) = true) :
    ∀ (fuel attempts : Nat) (st : AppSt) (res : WResults) (hadApiError : Bool),
    res.success = res.images.length →
    (runAttempts oracle prompt maxAttempts fuel attempts st res hadApiError).2.1.success
      = (runAttempts oracle prompt maxAttempts fuel attempts st res hadApiError).2.1.images.length := by
  intro fuel
  induction fuel with
  | zero =>
    intro attempts st res hadApiError hres
    exact hres
  | succ fuel ih =>
    intro attempts st res hadApiError hres
    rw [runAttempts]
    cases hdc : (drawClient st).1 with
    | none => exact hres
    | some tok =>
      cases horc : oracle st.calls with
      | errRes api =>
        by_cases hm : attempts + 1 ≥ maxAttempts
        · simp only [if_pos hm]
          exact hres
        · simp only [if_neg hm]
          exact ih (attempts + 1) _ res (hadApiError || api) hres
      | okRes imagePanels sink =>
        by_cases hz : imagePanels.length = 0
        · simp only [if_pos hz]
          by_cases hm : attempts + 1 ≥ maxAttempts
          · simp only [if_pos hm]
            exact hres
          · simp only [if_neg hm]
            exact ih (attempts + 1) _ res hadApiError hres
        · simp only [if_neg hz]
          cases sink with
          | allOk =>
            show res.success + imagePanels.flatten.length
              = (res.images ++ imagePanels.flatten).length
            rw [List.length_append, hres]
          | failAt idx api =>
            have h := hsink st.calls
            rw [horc] at h
            exact Bool.noConfusion h
      | exn api =>
        by_cases hm : attempts + 1 ≥ maxAttempts
        · simp only [if_pos hm]
          exact hres
        · simp only [if_neg hm]
          exact ih (attempts + 1) _ res (hadApiError || api) hres

lemma workerLoop_success_le (oracle : Nat → CallOutcome) :
    ∀ (prompts : List String) (st : AppSt) (res : WResults) (streak : Nat),
    res.success ≤ res.images.length →
    (workerLoop oracle prompts st res streak).2.success
      ≤ (workerLoop oracle prompts st res streak).2.images.length := by
  intro prompts
  induction prompts with
  | nil =>
    intro st res streak hres
    exact hres
  | cons prompt rest ih =>
    intro st res streak hres
    have hstep : (processPrompt oracle prompt st res).2.1.success
        ≤ (processPrompt oracle prompt st res).2.1.images.length :=
      runAttempts_success_le oracle prompt _ _ 0 _ res false hres
    cases hflag : (processPrompt oracle prompt st res).2.2 with
    | true =>
      by_cases hts : streak + 1 ≥ MAX_CONSECUTIVE_PROMPT_ERRORS
      · simp only [workerLoop, hflag, if_true, if_pos hts]
        exact hstep
      · simp only [workerLoop, hflag, if_true, if_neg hts]
        exact ih _ _ (streak + 1) hstep
    | false =>
      simp only [workerLoop, hflag, Bool.false_eq_true, if_false]
      exact ih _ _ 0 hstep

lemma workerLoop_success_eq (oracle : Nat → CallOutcome)
    (hsink : ∀ k, noSinkFailure (oracle k) = true) :
    ∀ (prompts : List String) (st : AppSt) (res : WResults) (streak : Nat),
    res.success = res.images.length →
    (workerLoop oracle prompts st res streak).2.success
      = (workerLoop oracle prompts st res streak).2.images.length := by
  intro prompts
  induction prompts with
  | nil =>
    intro st res streak hres
    exact hres
  | cons prompt rest ih =>
    intro st res streak hres
    have hstep : (processPrompt oracle prompt st res).2.1.success
        = (processPrompt oracle prompt st res).2.1.images.length :=
      runAttempts_success_eq oracle prompt _ hsink _ 0 _ res false hres
    cases hflag : (processPrompt oracle prompt st res).2.2 with
    | true =>
      by_cases hts : streak + 1 ≥ MAX_CONSECUTIVE_PROMPT_ERRORS
      · simp only [workerLoop, hflag, if_true, if_pos hts]
        exact hstep
      · simp only [workerLoop, hflag, if_true, if_neg hts]
        exact ih _ _ (streak + 1) hstep
    | false =>
      simp only [workerLoop, hflag, Bool.false_eq_true, if_false]
      exact ih _ _ 0 hstep

lemma workerSimple_success_le (oracle : Nat → CallOutcome) :
    ∀ (prompts : List String) (calls : Nat) (res : WResultsSimple),
    res.success ≤ res.images.length →
    (generateImagesWorkerSimple oracle prompts calls res).success
      ≤ (generateImagesWorkerSimple oracle prompts calls res).images.length := by
  intro prompts
  induction prompts with
  | nil =>
    intro calls res hres
    exact hres
  | cons prompt rest ih =>
    intro calls res hres
    rw [generateImagesWorkerSimple]
    cases horc : oracle calls with
    | errRes api => exact ih (calls + 1) _ hres
    | exn api => exact ih (calls + 1) _ hres
    | okRes imagePanels sink =>
      by_cases hz : imagePanels.length = 0
      · simp only [if_pos hz]
        exact ih (calls + 1) _ hres
      · simp only [if_neg hz]
        cases hsf : saveFails sink imagePanels.flatten.length with
        | some fail =>
          refine ih (calls + 1) _ ?_
          show res.success ≤ (res.images ++ imagePanels.flatten.take fail.1).length
          rw [List.length_append]
          omega
        | none =>
          refine ih (calls + 1) _ ?_
          show res.success + imagePanels.flatten.length
            ≤ (res.images ++ imagePanels.flatten).length
          rw [List.length_append]
          omega

lemma workerSimple_success_eq (oracle : Nat → CallOutcome)
    (hsink : ∀ k, noSinkFailure (oracle k) = true) :
    ∀ (prompts : List String) (calls : Nat) (res : WResultsSimple),
    res.success = res.images.length →
    (generateImagesWorkerSimple oracle prompts calls res).success
      = (generateImagesWorkerSimple oracle prompts calls res).images.length := by
  intro prompts
  induction prompts with
  | nil =>
    intro calls res hres
    exact hres
  | cons prompt rest ih =>
    intro calls res hres
    rw [generateImagesWorkerSimple]
    cases horc : oracle calls with
    | errRes api => exact ih (calls + 1) _ hres
    | exn api => exact ih (calls + 1) _ hres
    | okRes imagePanels sink =>
      by_cases hz : imagePanels.length = 0
      · simp only [if_pos hz]
        exact ih (calls + 1) _ hres
      · simp only [if_neg hz]
        cases sink with
        | allOk =>
          refine ih (calls + 1) _ ?_
          show res.success + imagePanels.flatten.length
            = (res.images ++ imagePanels.flatten).length
          rw [List.length_append, hres]
        | failAt idx api =>
          have h := hsink calls
          rw [horc] at h
          exact Bool.noConfusion h

/-- Claim C10 counterexample: one prompt whose response carries two
images and whose second `saveImage` call throws.  The first image stays
in the saved-images array while `success` is never incremented, so the
worker result has `success = 0` but one saved-image entry — in both
variants — refuting the claimed equality. -/
theorem claim10_counterexample :
    (generateImagesWorker
        (fun _ => CallOutcome.okRes [[1, 2]] (SaveBehavior.failAt 1 false)) ["a"]
        ⟨⟨[⟨"t", "s"⟩], 0⟩, some "a", 0⟩).2.images.length = 1 ∧
    (generateImagesWorker
        (fun _ => CallOutcome.okRes [[1, 2]] (SaveBehavior.failAt 1 false)) ["a"]
        ⟨⟨[⟨"t", "s"⟩], 0⟩, some "a", 0⟩).2.success = 0 ∧
    (generateImagesWorkerSimple
        (fun _ => CallOutcome.okRes [[1, 2]] (SaveBehavior.failAt 1 false)) ["a"] 0
        ⟨0, 0, []⟩).images.length = 1 ∧
    (generateImagesWorkerSimple
        (fun _ => CallOutcome.okRes [[1, 2]] (SaveBehavior.failAt 1 false)) ["a"] 0
        ⟨0, 0, []⟩).success = 0 := by
  refine ⟨by decide, by decide, by decide, by decide⟩

/-- Claim C10 amended: `success` counts once per image saved by a fully
successful prompt, so in every worker result (both variants) `success`
is at most the number of saved-image entries, with equality whenever no
`saveImage` call throws; a save that throws mid-panel leaves earlier
pushes in the array with `success` not incremented.  Success is still
counted per image, not per prompt: with every save succeeding, a single
two-image response yields `success = 2` against one completed prompt. -/
theorem claim10_success_counts_images :
    (∀ (oracle : Nat → CallOutcome) (prompts : List String) (st : AppSt),
      (generateImagesWorker oracle prompts st).2.success
        ≤ (generateImagesWorker oracle prompts st).2.images.length) ∧
    (∀ (oracle : Nat → CallOutcome) (prompts : List String) (st : AppSt),
      (∀ k, noSinkFailure (oracle k) = true) →
      (generateImagesWorker oracle prompts st).2.success
        = (generateImagesWorker oracle prompts st).2.images.length) ∧
    (∀ (oracle : Nat → CallOutcome) (prompts : List String) (calls : Nat),
      (generateImagesWorkerSimple oracle prompts calls ⟨0, 0, []⟩).success
        ≤ (generateImagesWorkerSimple oracle prompts calls ⟨0, 0, []⟩).images.length) ∧
    (∀ (oracle : Nat → CallOutcome) (prompts : List String) (calls : Nat),
      (∀ k, noSinkFailure (oracle k) = true) →
      (generateImagesWorkerSimple oracle prompts calls ⟨0, 0, []⟩).success
        = (generateImagesWorkerSimple oracle prompts calls ⟨0, 0, []⟩).images.length) ∧
    (generateImagesWorker (fun _ => CallOutcome.okRes [[1, 2]] SaveBehavior.allOk) ["a"]
        ⟨⟨[⟨"t", "s"⟩], 0⟩, some "a", 0⟩).2.success = 2 ∧
    (generateImagesWorker (fun _ => CallOutcome.okRes [[1, 2]] SaveBehavior.allOk) ["a"]
        ⟨⟨[⟨"t", "s"⟩], 0⟩, some "a", 0⟩).2.completedPrompts.length = 1 := by
  refine ⟨?_, ?_, ?_, ?_, by decide, by decide⟩
  · intro oracle prompts st
    exact workerLoop_success_le oracle prompts st emptyResults 0 (by decide)
  · intro oracle prompts st hsink
    exact workerLoop_success_eq oracle hsink prompts st emptyResults 0 rfl
  · intro oracle prompts calls
    exact workerSimple_success_le oracle prompts calls ⟨0, 0, []⟩ (by decide)
  · intro oracle prompts calls hsink
    exact workerSimple_success_eq oracle hsink prompts calls ⟨0, 0, []⟩ rfl

/-- Witness for the amended C10 at a concrete all-saves-succeed run:
the no-sink-failure hypothesis holds and success equals the number of
saved images. -/
theorem claim10_success_counts_images_witness :
    (∀ k, noSinkFailure
        ((fun _ : Nat => CallOutcome.okRes [[1, 2]] SaveBehavior.allOk) k) = true) ∧
    (generateImagesWorker (fun _ : Nat => CallOutcome.okRes [[1, 2]] SaveBehavior.allOk) ["a"]
        ⟨⟨[⟨"t", "s"⟩], 0⟩, some "a", 0⟩).2.success
      = (generateImagesWorker (fun _ : Nat => CallOutcome.okRes [[1, 2]] SaveBehavior.allOk) ["a"]
          ⟨⟨[⟨"t", "s"⟩], 0⟩, some "a", 0⟩).2.images.length :=
  ⟨fun _ => rfl,
    claim10_success_counts_images.2.1
      (fun _ : Nat => CallOutcome.okRes [[1, 2]] SaveBehavior.allOk) ["a"]
      ⟨⟨[⟨"t", "s"⟩], 0⟩, some "a", 0⟩ (fun _ => rfl)⟩

end Whisk

namespace Whisk

lemma runAttempts_api_flag (oracle : Nat → CallOutcome) (prompt : String)
    (maxAttempts : Nat) (fuel attempts : Nat) (st : AppSt) (res : WResults)
    (hadApiError : Bool)
    (hwf : st.pool.currentTokenIndex < st.pool.clients.length)
    (hapi : isApiClassified (oracle st.calls) = true) :
    (runAttempts oracle prompt maxAttempts (fuel + 1) attempts st res hadApiError).2.2 = true ∨
    (runAttempts oracle prompt maxAttempts (fuel + 1) attempts st res
        hadApiError).2.1.completedPrompts = res.completedPrompts ++ [prompt] := by
  have hsome : ((drawClient st).1).isSome = true := getNextClient_isSome st.pool hwf
  rw [runAttempts]
  cases hdc : (drawClient st).1 with
  | none =>
    rw [hdc] at hsome
    cases hsome
  | some tok =>
    cases horc : oracle st.calls with
    | errRes api =>
      have hat : api = true := by
        rw [horc] at hapi
        exact hapi
      subst hat
      by_cases hm : attempts + 1 ≥ maxAttempts
      · simp only [if_pos hm]
        left
        simp
      · simp only [if_neg hm]
        rcases runAttempts_master oracle prompt maxAttempts fuel (attempts + 1)
            { (drawClient st).2 with calls := st.calls + 1 } res (hadApiError || true) with
          ⟨_, _, h3⟩ | ⟨h1, _, _⟩
        · left
          exact h3 (by simp)
        · right
          exact h1
    | okRes imagePanels sink =>
      rw [horc] at hapi
      cases hapi
    | exn api =>
      have hat : api = true := by
        rw [horc] at hapi
        exact hapi
      subst hat
      by_cases hm : attempts + 1 ≥ maxAttempts
      · simp only [if_pos hm]
        left
        simp
      · simp only [if_neg hm]
        rcases runAttempts_master oracle prompt maxAttempts fuel (attempts + 1)
            { (drawClient st).2 with calls := st.calls + 1 } res (hadApiError || true) with
          ⟨_, _, h3⟩ | ⟨h1, _, _⟩
        · left
          exact h3 (by simp)
        · right
          exact h1

/-- Claim C7 amended: the per-prompt flag is reset to `false` whenever
the prompt ends in success, even if an earlier attempt was classified
RateLimited/Unauthorized; when the first attempt is so classified the
flag ends `true` unless a later attempt succeeds; and after the
prompt's loop the worker's consecutive streak is incremented when the
flag is set and reset to 0 otherwise. -/
theorem claim7_api_error_flag (oracle : Nat → CallOutcome) (prompt : String)
    (st : AppSt) (res : WResults) :
    ((processPrompt oracle prompt st res).2.1.completedPrompts
        = res.completedPrompts ++ [prompt] →
      (processPrompt oracle prompt st res).2.2 = false) ∧
    (st.pool.currentTokenIndex < st.pool.clients.length →
      isApiClassified (oracle st.calls) = true →
      ((processPrompt oracle prompt st res).2.2 = true ∨
        (processPrompt oracle prompt st res).2.1.completedPrompts
          = res.completedPrompts ++ [prompt])) ∧
    (∀ (rest : List String) (streak : Nat),
      (processPrompt oracle prompt st res).2.2 = false →
      workerLoop oracle (prompt :: rest) st res streak
        = workerLoop oracle rest (processPrompt oracle prompt st res).1
            (processPrompt oracle prompt st res).2.1 0) ∧
    (∀ (rest : List String) (streak : Nat),
      (processPrompt oracle prompt st res).2.2 = true →
      streak + 1 < MAX_CONSECUTIVE_PROMPT_ERRORS →
      workerLoop oracle (prompt :: rest) st res streak
        = workerLoop oracle rest (processPrompt oracle prompt st res).1
            (processPrompt oracle prompt st res).2.1 (streak + 1)) := by
  refine ⟨?_, ?_, ?_, ?_⟩
  · intro hc
    rcases processPrompt_cases oracle prompt st res with ⟨h1, _⟩ | ⟨_, _, h3⟩
    · rw [h1] at hc
      have := congrArg List.length hc
      simp at this
    · exact h3
  · intro hwf hapi
    unfold processPrompt
    have hP : 0 < st.pool.clients.length := by omega
    simp only [if_pos hP]
    cases hl : st.pool.clients.length with
    | zero => omega
    | succ n =>
      have hwf2 : ((drawClient st).2).pool.currentTokenIndex
          < ((drawClient st).2).pool.clients.length := getNextClient_cursor_lt st.pool hwf
      have hc2 : isApiClassified (oracle ((drawClient st).2).calls) = true := hapi
      exact runAttempts_api_flag oracle prompt (n + 1) n 0 (drawClient st).2 res false
        hwf2 hc2
  · intro rest streak hflag
    simp only [workerLoop, hflag, Bool.false_eq_true, if_false]
  · intro rest streak hflag hlt
    simp only [workerLoop, hflag, if_true, if_neg (by omega : ¬streak + 1 ≥ MAX_CONSECUTIVE_PROMPT_ERRORS)]

/-- Claim C7 counterexample: two tokens; the first attempt is
classified RateLimited, the second attempt succeeds.  The claim says
the flag should be set even when a later attempt succeeds, but the
worker resets it on success: the flag ends `false` (and the streak is
therefore reset, not incremented). -/
theorem claim7_counterexample :
    isApiClassified
        ((fun k => if k = 0 then CallOutcome.errRes true else CallOutcome.okRes [[7]] SaveBehavior.allOk) 0)
      = true ∧
    (processPrompt
        (fun k => if k = 0 then CallOutcome.errRes true else CallOutcome.okRes [[7]] SaveBehavior.allOk)
        "a" ⟨⟨[⟨"t", "s"⟩, ⟨"u", "v"⟩], 0⟩, some "a", 0⟩ emptyResults).2.1.completedPrompts
      = ["a"] ∧
    (processPrompt
        (fun k => if k = 0 then CallOutcome.errRes true else CallOutcome.okRes [[7]] SaveBehavior.allOk)
        "a" ⟨⟨[⟨"t", "s"⟩, ⟨"u", "v"⟩], 0⟩, some "a", 0⟩ emptyResults).2.2 = false := by
  refine ⟨by decide, by decide, by decide⟩

/-- Witness for C7 at a concrete always-succeeding run: the prompt
completes and the flag ends `false`. -/
theorem claim7_api_error_flag_witness :
    (processPrompt (fun _ => CallOutcome.okRes [[7]] SaveBehavior.allOk) "a"
        ⟨⟨[⟨"t", "s"⟩], 0⟩, some "a", 0⟩ emptyResults).2.1.completedPrompts
      = emptyResults.completedPrompts ++ ["a"] ∧
    (processPrompt (fun _ => CallOutcome.okRes [[7]] SaveBehavior.allOk) "a"
        ⟨⟨[⟨"t", "s"⟩], 0⟩, some "a", 0⟩ emptyResults).2.2 = false :=
  ⟨by decide,
    (claim7_api_error_flag (fun _ => CallOutcome.okRes [[7]] SaveBehavior.allOk) "a"
        ⟨⟨[⟨"t", "s"⟩], 0⟩, some "a", 0⟩ emptyResults).1 (by decide)⟩

end Whisk

namespace Whisk

lemma getD_set_self {α : Type} (l : List α) (i : Nat) (a d : α) (h : i < l.length) :
    (l.set i a).getD i d = a := by
  induction l generalizing i with
  | nil => cases h
  | cons x xs ih =>
    cases i with
    | zero => rfl
    | succ i =>
      have : i < xs.length := by
        simp only [List.length_cons] at h
        omega
      exact ih i this

lemma getD_set_ne {α : Type} (l : List α) (i j : Nat) (a d : α) (h : i ≠ j) :
    (l.set i a).getD j d = l.getD j d := by
  induction l generalizing i j with
  | nil => rfl
  | cons x xs ih =>
    cases i with
    | zero =>
      cases j with
      | zero => exact absurd rfl h
      | succ j => rfl
    | succ i =>
      cases j with
      | zero => rfl
      | succ j => exact ih i j (by omega)

lemma getD_replicate_nil : ∀ (n w : Nat),
    (List.replicate n ([] : List String)).getD w [] = [] := by
  intro n
  induction n with
  | zero =>
    intro w
    cases w <;> rfl
  | succ n ih =>
    intro w
    cases w with
    | zero => rfl
    | succ w => exact ih w

lemma distributeAux_getD (workerCount w : Nat) (hw : w < workerCount) :
    ∀ (prompts : List String) (idx : Nat) (acc : List (List String)),
    acc.length = workerCount →
    (distributeAux workerCount prompts idx acc).getD w []
      = acc.getD w []
        ++ ((List.enumFrom idx prompts).filter
              (fun pr => pr.1 % workerCount == w)).map Prod.snd := by
  intro prompts
  induction prompts with
  | nil =>
    intro idx acc hacc
    simp [distributeAux, List.enumFrom]
  | cons prompt rest ih =>
    intro idx acc hacc
    rw [distributeAux]
    have hlen2 : (acc.set (idx % workerCount)
        (acc.getD (idx % workerCount) [] ++ [prompt])).length = workerCount := by
      rw [List.length_set]
      exact hacc
    rw [ih (idx + 1) _ hlen2]
    have henum : List.enumFrom idx (prompt :: rest)
        = (idx, prompt) :: List.enumFrom (idx + 1) rest := rfl
    rw [henum]
    cases hb : idx % workerCount == w with
    | true =>
      have heq : idx % workerCount = w := by
        simpa using hb
      rw [List.filter_cons_of_pos (by simpa using hb)]
      rw [heq]
      rw [getD_set_self acc w _ [] (by omega)]
      simp [List.append_assoc]
    | false =>
      rw [List.filter_cons_of_neg (by simpa using hb)]
      have hne : idx % workerCount ≠ w := by
        intro hcontra
        rw [hcontra] at hb
        simp at hb
      rw [getD_set_ne acc _ w _ [] hne]

/-- Claim C8: the orchestrator's distribution assigns the prompt at
index i to worker i mod workerCount, preserving each worker's prompts
in original order: worker w's slice is exactly the prompts whose index
is congruent to w, in file order. -/
theorem claim8_round_robin (prompts : List String) (workerCount : Nat)
    (_h : 1 ≤ workerCount) (w : Nat) (hw : w < workerCount) :
    (distributePrompts prompts workerCount).getD w []
      = ((prompts.enum.filter (fun pr => pr.1 % workerCount == w)).map Prod.snd) := by
  unfold distributePrompts
  rw [distributeAux_getD workerCount w hw prompts 0 (List.replicate workerCount [])
    (List.length_replicate workerCount [])]
  rw [getD_replicate_nil]
  rfl

/-- Witness for C8: workerCount 3 and prompts p0..p8; worker 0 receives
p0, p3, p6 in order. -/
theorem claim8_round_robin_witness :
    1 ≤ 3 ∧ 0 < 3 ∧
    (distributePrompts ["p0", "p1", "p2", "p3", "p4", "p5", "p6", "p7", "p8"] 3).getD 0 []
      = ["p0", "p3", "p6"] := by
  have h := claim8_round_robin ["p0", "p1", "p2", "p3", "p4", "p5", "p6", "p7", "p8"] 3
    (by decide) 0 (by decide)
  exact ⟨by decide, by decide, h.trans (by decide)⟩

end Whisk
